import Mathlib

set_option maxRecDepth 8000

/- Shallow embedding of the two report generators in this repository:
   generate_category_report.py and generate_services_report.py.
   DataFrames are lists of records; cell values are numbers, strings or
   null (pandas NaN); fallible pandas operations (KeyError, IndexError,
   TypeError) are modelled with Except. -/

/-- A pandas cell value: a number, a string, or NaN (null). -/
inductive Val where
  | num (x : Int)
  | str (s : String)
  | null
deriving DecidableEq

/-- Elementwise pandas equality comparison: NaN compares unequal to
    everything, including NaN itself; values of different kinds compare
    unequal. -/
def valEq : Val → Val → Bool
  | .num a, .num b => a == b
  | .str a, .str b => a == b
  | _, _ => false

/-- One input row: an assignment of cell values to column names. -/
abbrev Record := List (String × Val)

/-- A DataFrame: named columns and a list of rows. -/
structure Df where
  cols : List String
  rows : List Record
deriving DecidableEq

/-- Row access by column label. Rows of a well-formed frame carry a value
    for every frame column; an absent label behaves as NaN. -/
def getCell (r : Record) (c : String) : Val :=
  match r.find? (fun p => p.1 == c) with
  | some p => p.2
  | none => .null

/-- An output table: ordered row labels (the metric names, pandas index or
    leading label column) and ordered named data columns. -/
structure Table where
  rowNames : List String
  cols : List (String × List Val)
deriving DecidableEq

/-- Column selection by label (first occurrence), as pandas
    getitem on a column name. -/
def colOf (cols : List (String × List Val)) (name : String) : List Val :=
  match cols.find? (fun c => c.1 == name) with
  | some c => c.2
  | none => []

/-- Value of a column at the position of a given row label. -/
def cellLookup : List String → List Val → String → Val
  | n :: ns, v :: vs, m => if n == m then v else cellLookup ns vs m
  | _, _, _ => .null

/-- The (metric, entity) cell of an output table. -/
def cellOf (t : Table) (m e : String) : Val :=
  cellLookup t.rowNames (colOf t.cols e) m

/-- DataFrame.fillna(0) on one cell: NaN becomes 0, other values pass
    through. -/
def fillnaVal : Val → Val
  | .null => .num 0
  | v => v

/-- Elementwise pandas addition on object cells: number plus number adds,
    string plus string concatenates, NaN absorbs numbers, and a
    string/number mix raises TypeError (modelled as none). -/
def valAdd : Val → Val → Option Val
  | .num a, .num b => some (.num (a + b))
  | .str a, .str b => some (.str (a ++ b))
  | .null, .num _ => some .null
  | .num _, .null => some .null
  | .null, .null => some .null
  | _, _ => none

/-- Elementwise addition of two equal-length columns; none when any cell
    pair raises TypeError. -/
def zipWithAdd : List Val → List Val → Option (List Val)
  | [], [] => some []
  | a :: as, b :: bs =>
    match valAdd a b, zipWithAdd as bs with
    | some c, some cs => some (c :: cs)
    | _, _ => none
  | _, _ => none

/-- DataFrame.insert(n, name, values): insert an element at position n. -/
def insertAt : Nat → α → List α → List α
  | 0, x, l => x :: l
  | _ + 1, x, [] => [x]
  | n + 1, x, a :: l => a :: insertAt n x l

/-- Whether an Except value is a success. -/
def isOkE : Except ε α → Bool
  | .ok _ => true
  | .error _ => false

/- ---------------- generate_category_report.py ---------------- -/

/-- The hardcoded metric order of generate_category_report.py. -/
def metrics : List String :=
  ["[TopLine_Revenue]",
   "[Base_usuarios]",
   "[v_Activaciones_Revenue]",
   "[v__Activaciones]",
   "[v_Renovaciones_Revenue]",
   "[v_Renovaciones]",
   "[v_Rfnds]",
   "[Rfnds_U_U]",
   "[Total_Refnds]",
   "[v__Churn_from_act2]",
   "[v__Chur_prev_base]",
   "[v__Churn]",
   "[v_Auto_Ref]",
   "[Auto_Ref_UU]",
   "[Automatic_Refund_Amount]",
   "[v_Reg_Ref]",
   "[Reg_Ref_UU]",
   "[Reg_Refund_Amount]"]

/-- The hardcoded category order of generate_category_report.py. -/
def categories : List String :=
  ["Beauty and Health",
   "Free Time",
   "Games",
   "Education",
   "Images",
   "Kids",
   "Light",
   "Music",
   "News",
   "Sports"]

/-- The key column of the category script. -/
def category_col : String := "Master_CPC[TME Category]"

/-- The values of one output column of the category transform, before
    fillna: when no input row has the category in the key column the
    column is all zeros; otherwise, per metric, the first matching row's
    cell when the metric is among the frame columns, else 0. -/
def categoryColVals (df : Df) (cat : String) : List Val :=
  match df.rows.find? (fun r => valEq (getCell r category_col) (Val.str cat)) with
  | none => metrics.map (fun _ => Val.num 0)
  | some r => metrics.map (fun m => if df.cols.contains m then getCell r m else Val.num 0)

/-- The populated output columns after output_df.fillna(0), before the
    derived Edu+Img column is inserted. -/
def categoryFilled (df : Df) : List (String × List Val) :=
  categories.map (fun cat => (cat, (categoryColVals df cat).map fillnaVal))

/-- Body of transform_to_column_format once the key column access has
    succeeded: populate all categories, fillna, then compute
    Education + Images (which may raise TypeError) and insert it right
    after the Images column. -/
def categoryTransformBody (df : Df) : Except String Table :=
  let filled := categoryFilled df
  match (filled.map Prod.fst).contains "Education" && (filled.map Prod.fst).contains "Images" with
  | true =>
    match zipWithAdd (colOf filled "Education") (colOf filled "Images") with
    | some sums =>
      .ok ⟨metrics, insertAt (filled.findIdx (fun c => c.1 == "Images") + 1) ("Edu+Img", sums) filled⟩
    | none => .error "TypeError"
  | false => .ok ⟨metrics, filled⟩

/-- transform_to_column_format of generate_category_report.py. Accessing
    df[category_col] with the key column absent raises KeyError on the
    first loop iteration, before anything is produced. -/
def transform_to_column_format (df : Df) : Except String Table :=
  match df.cols.contains category_col with
  | true => categoryTransformBody df
  | false => .error "KeyError"

/- ---------------- generate_services_report.py ---------------- -/

/-- The key column of the services script. -/
def service_col : String := "Master_CPC[Service Name]"

/-- The hardcoded metric order of generate_services_report.py. -/
def metric_order : List String :=
  ["[TopLine_Revenue]",
   "[Base_usuarios]",
   "[v_Activaciones_Revenue]",
   "[v__Activaciones]",
   "[v_Renovaciones_Revenue]",
   "[v_Renovaciones]",
   "[v_Rfnds]",
   "[Rfnds_U_U]",
   "[Total_Refnds]",
   "[v__Churn_from_act2]",
   "[v__Chur_prev_base]",
   "[v__Churn]",
   "[v_Auto_Ref]",
   "[Auto_Ref_UU]",
   "[Automatic_Refund_Amount]",
   "[v_Reg_Ref]",
   "[Reg_Ref_UU]",
   "[Reg_Refund_Amount]"]

/-- The hardcoded service column order of generate_services_report.py. -/
def service_order : List String :=
  ["IntimaX",
   "Rincon Prohibido",
   "The Tourist",
   "El Mundo Al Revés",
   "Noticias Emocion",
   "Deportes emocion",
   "Cuidate Mejor",
   "Sexducate con LB",
   "Yo Mujer y +",
   "Slow Life",
   "Movistar Juegos",
   "Kids Play",
   "Smile & Learn"]

/-- read_input_data: after reading the sheet, raise ValueError unless the
    key column is among the frame columns (file system errors are outside
    the embedding). -/
def read_input_data (df : Df) : Except String Df :=
  match df.cols.contains service_col with
  | true => .ok df
  | false => .error "Missing required column: Master_CPC[Service Name]"

/-- Whether a string starts with an open square bracket
    (col.startswith of the category scripts). -/
def headIsOpenBracket (c : String) : Bool :=
  match c.toList with
  | ch :: _ => ch = '['
  | [] => false

/-- Whether a string ends with a close square bracket. -/
def lastIsCloseBracket (c : String) : Bool :=
  match c.toList.getLast? with
  | some ch => ch = ']'
  | none => false

/-- get_metric_columns: the frame columns that start with an open bracket
    and end with a close bracket. -/
def get_metric_columns (df : Df) : List String :=
  df.cols.filter (fun c => headIsOpenBracket c && lastIsCloseBracket c)

/-- Keep the first occurrence of each value, in first-occurrence order
    (Python dict key insertion semantics). -/
def firstDedupAux (seen : List Val) : List Val → List Val
  | [] => []
  | a :: l => if a ∈ seen then firstDedupAux seen l else a :: firstDedupAux (a :: seen) l

/-- First-occurrence deduplication of a list of values. -/
def firstDedup (l : List Val) : List Val := firstDedupAux [] l

/-- The intermediate frame built by transform_data: the labels of the
    service columns (Python dict keys, in first-occurrence order) and one
    row per metric column, holding that metric's value for each service. -/
structure TDf where
  svcNames : List Val
  rows : List (String × List Val)
deriving DecidableEq

/-- transform_data of generate_services_report.py: list the key-column
    value of every row; for each such value take the first row whose key
    cell compares equal to it (a NaN key never compares equal, so
    iloc[0] on the empty selection raises IndexError) and record its
    metric values. Duplicate keys overwrite the same dict entry with the
    same first-row values. -/
def transform_data (df : Df) (metric_cols : List String) : Except String TDf :=
  match (df.rows.map (fun r => getCell r service_col)).all
      (fun s => df.rows.any (fun r => valEq (getCell r service_col) s)) with
  | true =>
    .ok ⟨firstDedup (df.rows.map (fun r => getCell r service_col)),
      metric_cols.map (fun m =>
        (m, (firstDedup (df.rows.map (fun r => getCell r service_col))).map (fun s =>
          match df.rows.find? (fun r => valEq (getCell r service_col) s) with
          | some r => getCell r m
          | none => Val.null)))⟩
  | false => .error "IndexError"

/-- Stable grouping sort used by apply_output_structure: emit, for each
    name of the order list in turn, the rows carrying that name. For the
    distinct hardcoded metric names this coincides with
    sort_values on the _sort_order column. -/
def sortByOrder (order : List String) (rows : List (String × List Val)) : List (String × List Val) :=
  match order with
  | [] => []
  | m :: ms => rows.filter (fun r => r.1 == m) ++ sortByOrder ms rows

/-- The names of some list, grouped by an order list: for each order name
    in turn, the occurrences of that name. -/
def orderedNames (order : List String) (names : List String) : List String :=
  match order with
  | [] => []
  | m :: ms => names.filter (fun n => n == m) ++ orderedNames ms names

/-- Value of the service column labelled s in a transformed row whose
    values are aligned with the svcNames labels. -/
def lookupSvc : List Val → List Val → Val → Val
  | n :: ns, v :: vs, s => if n = s then v else lookupSvc ns vs s
  | _, _, _ => .null

/-- apply_output_structure of generate_services_report.py: keep only rows
    whose metric name is in metric_order, sort them by metric_order
    position, then select the label column plus the service columns in
    service_order; a configured service absent from the frame columns
    raises KeyError. -/
def apply_output_structure (t : TDf) (mo so : List String) : Except String Table :=
  match so.all (fun s => t.svcNames.contains (Val.str s)) with
  | true =>
    .ok ⟨(sortByOrder mo (t.rows.filter (fun r => mo.contains r.1))).map Prod.fst,
      so.map (fun s =>
        (s, (sortByOrder mo (t.rows.filter (fun r => mo.contains r.1))).map
          (fun r => lookupSvc t.svcNames r.2 (Val.str s))))⟩
  | false => .error "KeyError"

/-- The full services pipeline: read (schema check), identify metric
    columns, transpose, apply the hardcoded structure. An error means the
    run aborts, save_output is never reached and the process exits
    non-zero. -/
def services_pipeline (df : Df) : Except String Table :=
  match read_input_data df with
  | .error e => .error e
  | .ok d =>
    match transform_data d (get_metric_columns d) with
    | .error e => .error e
    | .ok t => apply_output_structure t metric_order service_order

/- ---------------- run stages and CLI path defaulting ---------------- -/

/-- Where a run stops: the read step fails, the transpose/transform step
    fails, the structuring step fails, or the table reaches the sink. -/
inductive RunStage where
  | readFailed
  | transformFailed
  | structureFailed
  | saved
deriving DecidableEq

/-- Stage reached by the services script on a given frame. -/
def services_run_stage (df : Df) : RunStage :=
  match read_input_data df with
  | .error _ => .readFailed
  | .ok d =>
    match transform_data d (get_metric_columns d) with
    | .error _ => .transformFailed
    | .ok t =>
      match apply_output_structure t metric_order service_order with
      | .error _ => .structureFailed
      | .ok _ => .saved

/-- Stage reached by the category script on a given frame:
    read_category_data performs no schema validation (it only guards the
    file read, outside the embedding), so a missing key column surfaces
    inside transform_to_column_format. -/
def category_run_stage (df : Df) : RunStage :=
  match transform_to_column_format df with
  | .error _ => .transformFailed
  | .ok _ => .saved

/-- A pathlib.Path, modelled as its parent directory and final
    component. -/
structure PyPath where
  dir : String
  name : String
deriving DecidableEq

/-- Index of the last dot of a character list, if any (str.rfind of a
    dot). -/
def lastDotIdx (cs : List Char) : Option Nat :=
  (cs.foldl (fun (acc : Option Nat × Nat) c =>
    (if c = '.' then some acc.2 else acc.1, acc.2 + 1)) (none, 0)).1

/-- PurePath.suffix: the final dot-led component of the name, unless the
    dot is the first or the last character. -/
def pathSuffix (s : String) : String :=
  let cs := s.toList
  match lastDotIdx cs with
  | some i => if 0 < i ∧ i < cs.length - 1 then String.mk (cs.drop i) else ""
  | none => ""

/-- PurePath.stem: the name with its suffix removed. -/
def pathStem (s : String) : String :=
  let cs := s.toList
  match lastDotIdx cs with
  | some i => if 0 < i ∧ i < cs.length - 1 then String.mk (cs.take i) else s
  | none => s

/-- Default output path used by both scripts when the second CLI argument
    is omitted: input_path.parent joined with the input stem followed by
    the literal _output.xlsx. -/
def default_output_name (p : PyPath) : PyPath :=
  ⟨p.dir, pathStem p.name ++ "_output" ++ ".xlsx"⟩

/-- Modelled from the spec: the CLI surface sentence says the default
    output is the input stem followed by _output with the input's own
    extension, alongside the input. -/
def spec_default_output (p : PyPath) : PyPath :=
  ⟨p.dir, pathStem p.name ++ "_output" ++ pathSuffix p.name⟩

/- ---------------- concrete frames for witnesses and counterexamples ---------------- -/

/-- A category input carrying every category with TopLine_Revenue 3. -/
def dfCatFull : Df :=
  ⟨[category_col, "[TopLine_Revenue]"],
   categories.map (fun c => [(category_col, Val.str c), ("[TopLine_Revenue]", Val.num 3)])⟩

/-- A column with TopLine_Revenue 3 and the other 17 metrics zero. -/
def catColW : List Val := Val.num 3 :: List.replicate 17 (Val.num 0)

/-- The category output for dfCatFull. -/
def tCatFull : Table :=
  ⟨metrics,
   [("Beauty and Health", catColW), ("Free Time", catColW), ("Games", catColW),
    ("Education", catColW), ("Images", catColW),
    ("Edu+Img", Val.num 6 :: List.replicate 17 (Val.num 0)),
    ("Kids", catColW), ("Light", catColW), ("Music", catColW), ("News", catColW),
    ("Sports", catColW)]⟩

/-- A category input containing a single record, for the Games category. -/
def dfCatOnlyGames : Df :=
  ⟨[category_col, "[TopLine_Revenue]"],
   [[(category_col, Val.str "Games"), ("[TopLine_Revenue]", Val.num 5)]]⟩

/-- An all-zero output column. -/
def zeros18 : List Val := List.replicate 18 (Val.num 0)

/-- The category output for dfCatOnlyGames: every category except Games is
    zero-filled. -/
def tCatOnlyGames : Table :=
  ⟨metrics,
   [("Beauty and Health", zeros18), ("Free Time", zeros18),
    ("Games", Val.num 5 :: List.replicate 17 (Val.num 0)),
    ("Education", zeros18), ("Images", zeros18), ("Edu+Img", zeros18),
    ("Kids", zeros18), ("Light", zeros18), ("Music", zeros18), ("News", zeros18),
    ("Sports", zeros18)]⟩

/-- A services input carrying every service with TopLine_Revenue 2. -/
def dfSvcFull : Df :=
  ⟨[service_col, "[TopLine_Revenue]"],
   service_order.map (fun s => [(service_col, Val.str s), ("[TopLine_Revenue]", Val.num 2)])⟩

/-- The services output for dfSvcFull. -/
def tSvcFull : Table :=
  ⟨["[TopLine_Revenue]"], service_order.map (fun s => (s, [Val.num 2]))⟩

/-- A services input whose frame has no metric column at all. -/
def dfC1 : Df := ⟨[service_col], service_order.map (fun s => [(service_col, Val.str s)])⟩

/-- The services output for dfC1: no rows. -/
def tC1 : Table := ⟨[], service_order.map (fun s => (s, ([] : List Val)))⟩

/-- A services input carrying only the Base_usuarios metric column. -/
def dfC2 : Df :=
  ⟨[service_col, "[Base_usuarios]"],
   service_order.map (fun s => [(service_col, Val.str s), ("[Base_usuarios]", Val.num 1)])⟩

/-- The services output for dfC2: a single row. -/
def tC2 : Table :=
  ⟨["[Base_usuarios]"], service_order.map (fun s => (s, [Val.num 1]))⟩

/-- A services input missing the first configured service, IntimaX. -/
def dfC3 : Df :=
  ⟨[service_col], (service_order.drop 1).map (fun s => [(service_col, Val.str s)])⟩

/-- A services input whose IntimaX record has a null TopLine_Revenue. -/
def dfC4 : Df :=
  ⟨[service_col, "[TopLine_Revenue]"],
   [(service_col, Val.str "IntimaX"), ("[TopLine_Revenue]", Val.null)] ::
     (service_order.drop 1).map (fun s => [(service_col, Val.str s), ("[TopLine_Revenue]", Val.num 1)])⟩

/-- The services output for dfC4: IntimaX keeps the null. -/
def tC4 : Table :=
  ⟨["[TopLine_Revenue]"],
   ("IntimaX", [Val.null]) ::
     (service_order.drop 1).map (fun s => (s, [Val.num 1]))⟩

/-- A services input carrying only the v__Churn metric column. -/
def dfC6 : Df :=
  ⟨[service_col, "[v__Churn]"],
   service_order.map (fun s => [(service_col, Val.str s), ("[v__Churn]", Val.num 2)])⟩

/-- The services output for dfC6: only the v__Churn row. -/
def tC6 : Table :=
  ⟨["[v__Churn]"], service_order.map (fun s => (s, [Val.num 2]))⟩

/-- A category input whose Education record holds a string metric value
    while the Images record holds a number. -/
def dfC10 : Df :=
  ⟨[category_col, "[TopLine_Revenue]"],
   [[(category_col, Val.str "Education"), ("[TopLine_Revenue]", Val.str "x")],
    [(category_col, Val.str "Images"), ("[TopLine_Revenue]", Val.num 1)]]⟩

/-- A frame without either script's key column. -/
def dfNoKey : Df := ⟨["X"], []⟩

/-- A record duplicating the Games category with a different value. -/
def rDupGames : Record := [(category_col, Val.str "Games"), ("[TopLine_Revenue]", Val.num 99)]

/-- A record duplicating the IntimaX service with a different value. -/
def rDupIntimaX : Record := [(service_col, Val.str "IntimaX"), ("[TopLine_Revenue]", Val.num 77)]

/-- First of two duplicate-keyed IntimaX records. -/
def rIntimaXFirst : Record := [(service_col, Val.str "IntimaX"), ("[TopLine_Revenue]", Val.num 5)]

/-- Second of two duplicate-keyed IntimaX records, with a different
    value. -/
def rIntimaXSecond : Record := [(service_col, Val.str "IntimaX"), ("[TopLine_Revenue]", Val.num 9)]

/-- A services input whose first two records share the IntimaX key. -/
def dfDupSvc : Df :=
  ⟨[service_col, "[TopLine_Revenue]"],
   rIntimaXFirst :: rIntimaXSecond ::
     (service_order.drop 1).map (fun s => [(service_col, Val.str s), ("[TopLine_Revenue]", Val.num 2)])⟩

/-- The services output for dfDupSvc: IntimaX carries the first record's
    value 5, not the duplicate's 9. -/
def tDupSvc : Table :=
  ⟨["[TopLine_Revenue]"],
   ("IntimaX", [Val.num 5]) :: (service_order.drop 1).map (fun s => (s, [Val.num 2]))⟩

/-- First of two duplicate-keyed Games records. -/
def rGamesFirst : Record := [(category_col, Val.str "Games"), ("[TopLine_Revenue]", Val.num 5)]

/-- Second of two duplicate-keyed Games records, with a different
    value. -/
def rGamesSecond : Record := [(category_col, Val.str "Games"), ("[TopLine_Revenue]", Val.num 9)]

/-- A category input holding two records with the same Games key. -/
def dfDupCat : Df := ⟨[category_col, "[TopLine_Revenue]"], [rGamesFirst, rGamesSecond]⟩

/-- The column list of a successful category transform: the populated,
    fillna-normalized category columns with the derived Edu+Img column
    inserted immediately after Images. -/
def categoryOutCols (df : Df) (sums : List Val) : List (String × List Val) :=
  [("Beauty and Health", (categoryColVals df "Beauty and Health").map fillnaVal),
   ("Free Time", (categoryColVals df "Free Time").map fillnaVal),
   ("Games", (categoryColVals df "Games").map fillnaVal),
   ("Education", (categoryColVals df "Education").map fillnaVal),
   ("Images", (categoryColVals df "Images").map fillnaVal),
   ("Edu+Img", sums),
   ("Kids", (categoryColVals df "Kids").map fillnaVal),
   ("Light", (categoryColVals df "Light").map fillnaVal),
   ("Music", (categoryColVals df "Music").map fillnaVal),
   ("News", (categoryColVals df "News").map fillnaVal),
   ("Sports", (categoryColVals df "Sports").map fillnaVal)]

/- ---------------- helper lemmas ---------------- -/

theorem valEq_eq {a b : Val} (h : valEq a b = true) : a = b := by
  cases a <;> cases b <;> simp_all [valEq]

theorem valEq_ne_null {a b : Val} (h : valEq a b = true) : b ≠ Val.null := by
  cases a <;> cases b <;> simp_all [valEq]

theorem contains_iff {α : Type} [BEq α] [LawfulBEq α] {l : List α} {a : α} :
    l.contains a = true ↔ a ∈ l :=
  List.elem_iff

theorem find?_append_some {α : Type} {p : α → Bool} {l₁ : List α} (l₂ : List α) {x : α}
    (h : l₁.find? p = some x) : (l₁ ++ l₂).find? p = some x := by
  rw [List.find?_append, h]; rfl

theorem find?_append_none {α : Type} {p : α → Bool} {l₁ : List α} (l₂ : List α)
    (h : l₁.find? p = none) : (l₁ ++ l₂).find? p = l₂.find? p := by
  rw [List.find?_append, h]; rfl

theorem all_congr_mem {α : Type} {l : List α} {p q : α → Bool}
    (h : ∀ x ∈ l, p x = q x) : l.all p = l.all q := by
  induction l with
  | nil => rfl
  | cons a l ih =>
    simp only [List.all_cons, h a (by simp)]
    rw [ih (fun x hx => h x (by simp [hx]))]

theorem map_fst_filter (p : String → Bool) (rows : List (String × List Val)) :
    (rows.filter (fun r => p r.1)).map Prod.fst = (rows.map Prod.fst).filter p := by
  induction rows with
  | nil => rfl
  | cons r rs ih => cases hp : p r.1 <;> simp [List.filter_cons, hp, ih]

theorem sortByOrder_map_fst (mo : List String) (rows : List (String × List Val)) :
    (sortByOrder mo rows).map Prod.fst = orderedNames mo (rows.map Prod.fst) := by
  induction mo with
  | nil => rfl
  | cons m ms ih =>
    simp only [sortByOrder, orderedNames, List.map_append, ih]
    rw [map_fst_filter (fun n => n == m) rows]

theorem filter_beq_filter (names : List String) (p : String → Bool) (m : String)
    (hm : p m = true) :
    (names.filter p).filter (fun n => n == m) = names.filter (fun n => n == m) := by
  induction names with
  | nil => rfl
  | cons n ns ih =>
    by_cases hnm : n = m
    · subst hnm; simp [List.filter_cons, hm, ih]
    · have hb : (n == m) = false := by simp [hnm]
      cases hp : p n <;> simp [List.filter_cons, hp, hb, ih]

theorem orderedNames_filter (p : String → Bool) :
    ∀ ms names : List String, (∀ x ∈ ms, p x = true) →
      orderedNames ms (names.filter p) = orderedNames ms names := by
  intro ms
  induction ms with
  | nil => intro names h; rfl
  | cons m ms ih =>
    intro names h
    simp only [orderedNames]
    rw [filter_beq_filter names p m (h m (by simp)),
      ih names (fun x hx => h x (by simp [hx]))]

theorem mem_orderedNames {m : String} :
    ∀ {mo names : List String}, m ∈ orderedNames mo names → m ∈ names := by
  intro mo
  induction mo with
  | nil => intro names h; simp [orderedNames] at h
  | cons x xs ih =>
    intro names h
    simp only [orderedNames, List.mem_append] at h
    rcases h with h | h
    · exact List.mem_of_mem_filter h
    · exact ih h

theorem cellLookup_map (g : String → Val) :
    ∀ (l : List String) (m : String), m ∈ l → cellLookup l (l.map g) m = g m := by
  intro l
  induction l with
  | nil => intro m h; simp at h
  | cons n ns ih =>
    intro m h
    by_cases hnm : n = m
    · subst hnm; simp [cellLookup]
    · have hb : (n == m) = false := by simp [hnm]
      have hm : m ∈ ns := by
        cases h with
        | head => exact absurd rfl hnm
        | tail _ h => exact h
      simp [cellLookup, List.map, hb, ih m hm]

theorem valAdd_no_null {a b c : Val} (h : valAdd a b = some c)
    (ha : a ≠ Val.null) (hb : b ≠ Val.null) : c ≠ Val.null := by
  cases a <;> cases b <;> simp_all [valAdd] <;> simp [← h]

theorem zipWithAdd_no_null :
    ∀ {as : List Val} {bs cs : List Val}, zipWithAdd as bs = some cs →
      (∀ a ∈ as, a ≠ Val.null) → (∀ b ∈ bs, b ≠ Val.null) →
      ∀ c ∈ cs, c ≠ Val.null := by
  intro as
  induction as with
  | nil =>
    intro bs cs h _ _ c hc
    cases bs <;> simp [zipWithAdd] at h
    subst h; simp at hc
  | cons a as ih =>
    intro bs cs h ha hb c hc
    cases bs with
    | nil => simp [zipWithAdd] at h
    | cons b bs =>
      cases hva : valAdd a b <;> cases hz : zipWithAdd as bs <;>
        simp [zipWithAdd, hva, hz] at h
      subst h
      cases hc with
      | head => exact valAdd_no_null hva (ha a (by simp)) (hb b (by simp))
      | tail _ hc =>
        exact ih hz (fun x hx => ha x (by simp [hx])) (fun x hx => hb x (by simp [hx])) c hc

theorem zipWithAdd_cell (g₁ g₂ : String → Val) :
    ∀ (l : List String) (cs : List Val) (m : String),
      zipWithAdd (l.map g₁) (l.map g₂) = some cs → m ∈ l →
      valAdd (cellLookup l (l.map g₁) m) (cellLookup l (l.map g₂) m) =
        some (cellLookup l cs m) := by
  intro l
  induction l with
  | nil => intro cs m h hm; simp at hm
  | cons n ns ih =>
    intro cs m h hm
    simp only [List.map] at h
    cases hva : valAdd (g₁ n) (g₂ n) <;>
      cases hz : zipWithAdd (ns.map g₁) (ns.map g₂) <;>
        simp [zipWithAdd, hva, hz] at h
    subst h
    by_cases hnm : n = m
    · subst hnm; simpa [cellLookup] using hva
    · have hb : (n == m) = false := by simp [hnm]
      have hm2 : m ∈ ns := by
        cases hm with
        | head => exact absurd rfl hnm
        | tail _ hmm => exact hmm
      simp only [cellLookup, List.map, hb]
      simpa using ih _ m hz hm2

theorem fillna_ne_null (v : Val) : fillnaVal v ≠ Val.null := by
  cases v <;> simp [fillnaVal]

theorem firstDedupAux_append {x : Val} :
    ∀ (l seen : List Val), x ∈ l ∨ x ∈ seen →
      firstDedupAux seen (l ++ [x]) = firstDedupAux seen l := by
  intro l
  induction l with
  | nil =>
    intro seen h
    rcases h with h | h
    · simp at h
    · simp [firstDedupAux, h]
  | cons a l ih =>
    intro seen h
    by_cases ha : a ∈ seen
    · simp only [List.cons_append, firstDedupAux, if_pos ha]
      refine ih seen ?_
      rcases h with h | h
      · cases h with
        | head => exact Or.inr (by exact ha)
        | tail _ hh => exact Or.inl hh
      · exact Or.inr h
    · simp only [List.cons_append, firstDedupAux, if_neg ha]
      refine congrArg (fun ys => a :: ys) (ih (a :: seen) ?_)
      rcases h with h | h
      · cases h with
        | head => exact Or.inr (by simp)
        | tail _ hh => exact Or.inl hh
      · exact Or.inr (by simp [h])

theorem firstDedupAux_sub {x : Val} :
    ∀ (l seen : List Val), x ∈ firstDedupAux seen l → x ∈ l := by
  intro l
  induction l with
  | nil => intro seen h; simp [firstDedupAux] at h
  | cons a l ih =>
    intro seen h
    by_cases ha : a ∈ seen
    · simp only [firstDedupAux, if_pos ha] at h
      exact List.mem_cons_of_mem a (ih seen h)
    · simp only [firstDedupAux, if_neg ha] at h
      cases h with
      | head => exact List.mem_cons_self _ _
      | tail _ hh => exact List.mem_cons_of_mem a (ih (a :: seen) hh)

theorem transform_eq_body {df : Df} (h : df.cols.contains category_col = true) :
    transform_to_column_format df = categoryTransformBody df := by
  unfold transform_to_column_format
  rw [h]

theorem transform_error_of_no_key {df : Df} (h : df.cols.contains category_col = false) :
    transform_to_column_format df = .error "KeyError" := by
  unfold transform_to_column_format
  rw [h]

theorem categoryTransformBody_eq (df : Df) :
    categoryTransformBody df =
      match zipWithAdd ((categoryColVals df "Education").map fillnaVal)
                       ((categoryColVals df "Images").map fillnaVal) with
      | some sums => .ok ⟨metrics, categoryOutCols df sums⟩
      | none => .error "TypeError" :=
  rfl

theorem categoryColVals_length (df : Df) (cat : String) :
    (categoryColVals df cat).length = metrics.length := by
  unfold categoryColVals
  split <;> simp

theorem categoryColVals_none {df : Df} {cat : String}
    (h : df.rows.find? (fun r => valEq (getCell r category_col) (Val.str cat)) = none) :
    categoryColVals df cat = metrics.map (fun _ => Val.num 0) := by
  unfold categoryColVals
  rw [h]

theorem categoryColVals_some {df : Df} {cat : String} {r : Record}
    (h : df.rows.find? (fun r => valEq (getCell r category_col) (Val.str cat)) = some r) :
    categoryColVals df cat =
      metrics.map (fun m => if df.cols.contains m then getCell r m else Val.num 0) := by
  unfold categoryColVals
  rw [h]

theorem read_input_data_ok {df d : Df} (h : read_input_data df = .ok d) :
    d = df ∧ df.cols.contains service_col = true := by
  unfold read_input_data at h
  cases hc : df.cols.contains service_col <;> rw [hc] at h
  · exact absurd h (by simp)
  · simp only [Except.ok.injEq] at h
    exact ⟨h.symm, rfl⟩

theorem read_input_data_no_key {df : Df} (h : df.cols.contains service_col = false) :
    read_input_data df = .error "Missing required column: Master_CPC[Service Name]" := by
  unfold read_input_data
  rw [h]

theorem transform_data_ok {df : Df} {mc : List String} {t : TDf}
    (h : transform_data df mc = .ok t) :
    t.svcNames = firstDedup (df.rows.map (fun r => getCell r service_col)) ∧
    t.rows = mc.map (fun m =>
      (m, t.svcNames.map (fun s =>
        match df.rows.find? (fun r => valEq (getCell r service_col) s) with
        | some r => getCell r m
        | none => Val.null))) := by
  unfold transform_data at h
  split at h
  · simp only [Except.ok.injEq] at h
    subst h
    exact ⟨rfl, rfl⟩
  · exact absurd h (by simp)

theorem transform_data_rows_fst {df : Df} {mc : List String} {t : TDf}
    (h : transform_data df mc = .ok t) : t.rows.map Prod.fst = mc := by
  obtain ⟨_, hrows⟩ := transform_data_ok h
  rw [hrows, List.map_map]
  exact (List.map_congr_left fun a _ => rfl).trans (List.map_id mc)

theorem apply_output_structure_ok {t : TDf} {mo so : List String} {out : Table}
    (h : apply_output_structure t mo so = .ok out) :
    out.rowNames = orderedNames mo (t.rows.map Prod.fst) ∧
    out.cols.map Prod.fst = so ∧
    so.all (fun s => t.svcNames.contains (Val.str s)) = true := by
  unfold apply_output_structure at h
  split at h
  case _ hg =>
    simp only [Except.ok.injEq] at h
    subst h
    refine ⟨?_, ?_, hg⟩
    · show (sortByOrder mo (t.rows.filter (fun r => mo.contains r.1))).map Prod.fst = _
      rw [sortByOrder_map_fst, map_fst_filter (fun n => mo.contains n) t.rows]
      exact orderedNames_filter _ mo _ (fun x hx => contains_iff.mpr hx)
    · show (so.map _).map Prod.fst = so
      rw [List.map_map]
      exact (List.map_congr_left fun a _ => rfl).trans (List.map_id so)
  case _ => exact absurd h (by simp)

theorem apply_output_structure_err {t : TDf} {mo so : List String} {s : String}
    (hmem : s ∈ so) (habs : t.svcNames.contains (Val.str s) = false) :
    apply_output_structure t mo so = .error "KeyError" := by
  unfold apply_output_structure
  have hall : so.all (fun s => t.svcNames.contains (Val.str s)) = false := by
    cases hv : so.all (fun s => t.svcNames.contains (Val.str s))
    · rfl
    · have hs := List.all_eq_true.mp hv s hmem
      rw [habs] at hs
      exact absurd hs (by simp)
  rw [hall]

theorem services_pipeline_ok {df : Df} {out : Table}
    (h : services_pipeline df = .ok out) :
    ∃ t : TDf, transform_data df (get_metric_columns df) = .ok t ∧
      apply_output_structure t metric_order service_order = .ok out ∧
      df.cols.contains service_col = true := by
  unfold services_pipeline at h
  split at h
  · exact absurd h (by simp)
  case _ d hr =>
    obtain ⟨hd, hcol⟩ := read_input_data_ok hr
    subst hd
    split at h
    · exact absurd h (by simp)
    case _ t ht => exact ⟨t, ht, h, hcol⟩

theorem services_pipeline_rowNames {df : Df} {out : Table}
    (h : services_pipeline df = .ok out) :
    out.rowNames = orderedNames metric_order (get_metric_columns df) := by
  obtain ⟨t, ht, ha, _⟩ := services_pipeline_ok h
  obtain ⟨hrn, _, _⟩ := apply_output_structure_ok ha
  rw [hrn, transform_data_rows_fst ht]

theorem services_pipeline_cols {df : Df} {out : Table}
    (h : services_pipeline df = .ok out) :
    out.cols.map Prod.fst = service_order := by
  obtain ⟨t, ht, ha, _⟩ := services_pipeline_ok h
  exact (apply_output_structure_ok ha).2.1

theorem transform_ok_shape {df : Df} {t : Table}
    (h : transform_to_column_format df = .ok t) :
    ∃ sums : List Val,
      zipWithAdd ((categoryColVals df "Education").map fillnaVal)
                 ((categoryColVals df "Images").map fillnaVal) = some sums ∧
      t = ⟨metrics, categoryOutCols df sums⟩ := by
  cases hc : df.cols.contains category_col
  · rw [transform_error_of_no_key hc] at h
    exact absurd h (by simp)
  · rw [transform_eq_body hc, categoryTransformBody_eq] at h
    cases hz : zipWithAdd ((categoryColVals df "Education").map fillnaVal)
        ((categoryColVals df "Images").map fillnaVal) <;> rw [hz] at h
    · exact absurd h (by simp)
    case _ sums =>
      simp only [Except.ok.injEq] at h
      exact ⟨sums, rfl, h.symm⟩

theorem categoryColVals_is_map (df : Df) (cat : String) :
    ∃ g : String → Val, categoryColVals df cat = metrics.map g := by
  unfold categoryColVals
  split
  · exact ⟨fun _ => Val.num 0, rfl⟩
  case _ r _ =>
    exact ⟨fun m => if df.cols.contains m then getCell r m else Val.num 0, rfl⟩

/- ---------------- claim theorems ---------------- -/

/-- C8 counterexample: for input path in/data.xls the code computes the
    default output name data_output.xlsx, not data_output.xls as the
    claimed formula with the input's own extension would give. -/
theorem c8_counterexample :
    default_output_name ⟨"in", "data.xls"⟩ ≠ spec_default_output ⟨"in", "data.xls"⟩ := by
  decide

/-- C8 (amended): with the output argument omitted, both scripts default
    to the input's directory and the name stem plus _output.xlsx, with the
    extension hardcoded to .xlsx; the claimed formula stem plus _output
    plus the input's own extension holds exactly when that extension is
    .xlsx. -/
theorem c8_default_output_amended (p : PyPath) :
    (default_output_name p).dir = p.dir ∧
    (pathSuffix p.name = ".xlsx" → default_output_name p = spec_default_output p) := by
  refine ⟨rfl, fun h => ?_⟩
  unfold default_output_name spec_default_output
  rw [h]

/-- C8 witness: the amended statement instantiated at in/data.xlsx. -/
theorem c8_witness :
    pathSuffix "data.xlsx" = ".xlsx" ∧
    default_output_name ⟨"in", "data.xlsx"⟩ = spec_default_output ⟨"in", "data.xlsx"⟩ :=
  ⟨by decide, (c8_default_output_amended ⟨"in", "data.xlsx"⟩).2 (by decide)⟩

/-- C9 counterexample: on a frame without the key column the category
    script aborts inside the transform step (there is no pre-transform
    schema check in that variant), contradicting the claim that the run
    aborts before any transform step executes. -/
theorem c9_counterexample :
    dfNoKey.cols.contains category_col = false ∧
    category_run_stage dfNoKey = RunStage.transformFailed ∧
    category_run_stage dfNoKey ≠ RunStage.readFailed :=
  ⟨rfl, rfl, by decide⟩

/-- C9 (amended): a missing key column aborts the run in both variants
    with a non-saved stage, so no output is written and the process exits
    non-zero; the services variant stops in the read step before the
    transform, while the category variant fails inside the transform
    step. -/
theorem c9_abort_amended :
    (∀ df : Df, df.cols.contains service_col = false →
      services_run_stage df = RunStage.readFailed) ∧
    (∀ df : Df, df.cols.contains category_col = false →
      category_run_stage df = RunStage.transformFailed) := by
  constructor
  · intro df h
    unfold services_run_stage
    rw [read_input_data_no_key h]
  · intro df h
    unfold category_run_stage
    rw [transform_error_of_no_key h]

/-- C9 witness: both halves of the amended statement at a concrete
    keyless frame. -/
theorem c9_witness :
    dfNoKey.cols.contains service_col = false ∧
    services_run_stage dfNoKey = RunStage.readFailed ∧
    category_run_stage dfNoKey = RunStage.transformFailed :=
  ⟨rfl, c9_abort_amended.1 dfNoKey rfl, c9_abort_amended.2 dfNoKey rfl⟩

/-- C10 counterexample: an input with the key column whose Education
    record carries a string metric value while the Images record carries a
    number makes the Education plus Images addition raise TypeError, so
    the derived column is not created and no output with eleven columns
    exists for this input. -/
theorem c10_counterexample :
    dfC10.cols.contains category_col = true ∧
    transform_to_column_format dfC10 = .error "TypeError" :=
  ⟨rfl, rfl⟩

/-- C10 (amended): when the key column is present the guard checking that
    Education and Images are among the populated columns always evaluates
    true (every configured category yields a column, so the skip branch is
    unreachable), and whenever the transform completes the Edu+Img column
    was created and the output has exactly one more column than
    entity_order; a mixed-type addition can still abort the transform
    before any output exists. -/
theorem c10_derived_always_amended (df : Df)
    (_hkey : df.cols.contains category_col = true) :
    (((categoryFilled df).map Prod.fst).contains "Education" &&
      ((categoryFilled df).map Prod.fst).contains "Images") = true ∧
    ∀ t : Table, transform_to_column_format df = .ok t →
      t.cols.map Prod.fst =
        ["Beauty and Health", "Free Time", "Games", "Education", "Images",
         "Edu+Img", "Kids", "Light", "Music", "News", "Sports"] ∧
      t.cols.length = categories.length + 1 := by
  refine ⟨rfl, fun t ht => ?_⟩
  obtain ⟨sums, hz, hteq⟩ := transform_ok_shape ht
  subst hteq
  exact ⟨rfl, rfl⟩

/-- C10 witness: the amended statement at a concrete full input. -/
theorem c10_witness :
    dfCatFull.cols.contains category_col = true ∧
    transform_to_column_format dfCatFull = .ok tCatFull ∧
    tCatFull.cols.length = categories.length + 1 :=
  ⟨rfl, rfl, ((c10_derived_always_amended dfCatFull rfl).2 tCatFull rfl).2⟩

/-- C5: whenever the category transform succeeds, the derived Edu+Img
    column sits immediately to the right of Images in the column ordering,
    its values are the elementwise pandas sum of the Education and Images
    columns, and for every metric row the Edu+Img cell is the sum of that
    row's Education and Images cells. -/
theorem c5_derived_column (df : Df) (t : Table)
    (h : transform_to_column_format df = .ok t) :
    t.cols.map Prod.fst =
      ["Beauty and Health", "Free Time", "Games", "Education", "Images",
       "Edu+Img", "Kids", "Light", "Music", "News", "Sports"] ∧
    zipWithAdd (colOf t.cols "Education") (colOf t.cols "Images") =
      some (colOf t.cols "Edu+Img") ∧
    ∀ m ∈ metrics, valAdd (cellOf t m "Education") (cellOf t m "Images") =
      some (cellOf t m "Edu+Img") := by
  obtain ⟨sums, hz, hteq⟩ := transform_ok_shape h
  subst hteq
  refine ⟨rfl, hz, ?_⟩
  intro m hm
  obtain ⟨g₁, hg₁⟩ := categoryColVals_is_map df "Education"
  obtain ⟨g₂, hg₂⟩ := categoryColVals_is_map df "Images"
  show valAdd (cellLookup metrics ((categoryColVals df "Education").map fillnaVal) m)
      (cellLookup metrics ((categoryColVals df "Images").map fillnaVal) m) =
    some (cellLookup metrics sums m)
  rw [hg₁, hg₂, List.map_map, List.map_map] at hz ⊢
  exact zipWithAdd_cell _ _ metrics sums m hz hm

/-- C5 witness: the theorem at a concrete full input and the
    TopLine_Revenue row. -/
theorem c5_witness :
    transform_to_column_format dfCatFull = .ok tCatFull ∧
    valAdd (cellOf tCatFull "[TopLine_Revenue]" "Education")
        (cellOf tCatFull "[TopLine_Revenue]" "Images") =
      some (cellOf tCatFull "[TopLine_Revenue]" "Edu+Img") :=
  ⟨rfl, (c5_derived_column dfCatFull tCatFull rfl).2.2 "[TopLine_Revenue]" (by decide)⟩

/-- C4 counterexample: the services variant performs no null
    normalization: a null TopLine_Revenue cell for IntimaX reaches the
    final output table unchanged, so not every cell of the final output is
    a defined number. -/
theorem c4_counterexample :
    services_pipeline dfC4 = .ok tC4 ∧ colOf tC4.cols "IntimaX" = [Val.null] :=
  ⟨rfl, rfl⟩

/-- C4 (amended): in the category variant every cell of a successful
    transform's output, the derived column included, is non-null: nulls
    are normalized to zero by the single fillna pass that runs before the
    derived-column computation. The services variant performs no such
    normalization. -/
theorem c4_no_null_amended (df : Df) (t : Table)
    (h : transform_to_column_format df = .ok t) :
    ∀ c ∈ t.cols, ∀ v ∈ c.2, v ≠ Val.null := by
  obtain ⟨sums, hz, hteq⟩ := transform_ok_shape h
  subst hteq
  intro c hc v hv
  have hno : ∀ (cat : String), ∀ w ∈ (categoryColVals df cat).map fillnaVal, w ≠ Val.null := by
    intro cat w hw
    obtain ⟨u, _, he⟩ := List.mem_map.mp hw
    exact he ▸ fillna_ne_null u
  have hsums : ∀ w ∈ sums, w ≠ Val.null :=
    zipWithAdd_no_null hz (hno "Education") (hno "Images")
  simp only [categoryOutCols, List.mem_cons, List.not_mem_nil, or_false] at hc
  rcases hc with hc | hc | hc | hc | hc | hc | hc | hc | hc | hc | hc <;> subst hc <;>
    first
      | exact hsums v hv
      | exact hno _ v hv

/-- C4 witness: the amended statement at a concrete input, column and
    cell. -/
theorem c4_witness :
    transform_to_column_format dfCatOnlyGames = .ok tCatOnlyGames ∧
    Val.num 5 ≠ Val.null :=
  ⟨rfl, c4_no_null_amended dfCatOnlyGames tCatOnlyGames rfl
    ("Games", Val.num 5 :: List.replicate 17 (Val.num 0)) (by decide)
    (Val.num 5) (by decide)⟩

theorem colOf_categoryOutCols {df : Df} {sums : List Val} {cat : String}
    (h : cat ∈ categories) :
    colOf (categoryOutCols df sums) cat = (categoryColVals df cat).map fillnaVal := by
  simp only [categories, List.mem_cons, List.not_mem_nil, or_false] at h
  rcases h with h | h | h | h | h | h | h | h | h | h <;> subst h <;> rfl

theorem read_input_data_ok_of_key {df : Df}
    (h : df.cols.contains service_col = true) : read_input_data df = .ok df := by
  unfold read_input_data
  rw [h]

theorem services_pipeline_eq_of_key {df : Df}
    (h : df.cols.contains service_col = true) :
    services_pipeline df =
      match transform_data df (get_metric_columns df) with
      | .error e => .error e
      | .ok t => apply_output_structure t metric_order service_order := by
  unfold services_pipeline
  rw [read_input_data_ok_of_key h]

theorem transform_data_guard_false {df : Df} {mc : List String}
    (h : (df.rows.map (fun r => getCell r service_col)).all
      (fun s => df.rows.any (fun r => valEq (getCell r service_col) s)) = false) :
    transform_data df mc = .error "IndexError" := by
  unfold transform_data
  rw [h]

theorem transform_data_guard_true {df : Df} {mc : List String}
    (h : (df.rows.map (fun r => getCell r service_col)).all
      (fun s => df.rows.any (fun r => valEq (getCell r service_col) s)) = true) :
    transform_data df mc =
      .ok ⟨firstDedup (df.rows.map (fun r => getCell r service_col)),
        mc.map (fun m =>
          (m, (firstDedup (df.rows.map (fun r => getCell r service_col))).map (fun s =>
            match df.rows.find? (fun r => valEq (getCell r service_col) s) with
            | some r => getCell r m
            | none => Val.null)))⟩ := by
  unfold transform_data
  rw [h]

theorem transform_data_append {df : Df} {r' : Record} (mc : List String)
    (hex : ∃ r ∈ df.rows, valEq (getCell r service_col) (getCell r' service_col) = true) :
    transform_data ⟨df.cols, df.rows ++ [r']⟩ mc = transform_data df mc := by
  obtain ⟨r0, hr0, hvr0⟩ := hex
  have hkmem : getCell r' service_col ∈ df.rows.map (fun r => getCell r service_col) := by
    have heq : getCell r0 service_col = getCell r' service_col := valEq_eq hvr0
    exact heq ▸ List.mem_map_of_mem _ hr0
  have hany : ∀ s ∈ df.rows.map (fun r => getCell r service_col),
      (df.rows ++ [r']).any (fun r => valEq (getCell r service_col) s) =
      df.rows.any (fun r => valEq (getCell r service_col) s) := by
    intro s _
    rw [List.any_append]
    cases ha : df.rows.any (fun r => valEq (getCell r service_col) s)
    · cases hv : valEq (getCell r' service_col) s
      · simp [List.any_cons, hv]
      · have hs' : getCell r' service_col = s := valEq_eq hv
        have htrue : df.rows.any (fun r => valEq (getCell r service_col) s) = true := by
          refine List.any_eq_true.mpr ⟨r0, hr0, ?_⟩
          rw [← hs']
          exact hvr0
        rw [htrue] at ha
        exact absurd ha (by simp)
    · simp
  have hguard : ((df.rows ++ [r']).map (fun r => getCell r service_col)).all
      (fun s => (df.rows ++ [r']).any (fun r => valEq (getCell r service_col) s)) =
      (df.rows.map (fun r => getCell r service_col)).all
      (fun s => df.rows.any (fun r => valEq (getCell r service_col) s)) := by
    rw [List.map_append, List.all_append]
    have h1 := all_congr_mem hany
    have h2 : ([r'].map (fun r => getCell r service_col)).all
        (fun s => (df.rows ++ [r']).any (fun r => valEq (getCell r service_col) s)) = true := by
      simp only [List.map, List.all_cons, List.all_nil, Bool.and_true]
      rw [List.any_append]
      have hk : df.rows.any
          (fun r => valEq (getCell r service_col) (getCell r' service_col)) = true :=
        List.any_eq_true.mpr ⟨r0, hr0, hvr0⟩
      rw [hk]
      rfl
    rw [h1, h2, Bool.and_true]
  cases hg : (df.rows.map (fun r => getCell r service_col)).all
      (fun s => df.rows.any (fun r => valEq (getCell r service_col) s)) with
  | false =>
    have hgl : ((⟨df.cols, df.rows ++ [r']⟩ : Df).rows.map (fun r => getCell r service_col)).all
        (fun s => (⟨df.cols, df.rows ++ [r']⟩ : Df).rows.any
          (fun r => valEq (getCell r service_col) s)) = false := by
      show ((df.rows ++ [r']).map (fun r => getCell r service_col)).all
        (fun s => (df.rows ++ [r']).any (fun r => valEq (getCell r service_col) s)) = false
      rw [hguard]
      exact hg
    rw [transform_data_guard_false hgl, transform_data_guard_false hg]
  | true =>
    have hgl : ((⟨df.cols, df.rows ++ [r']⟩ : Df).rows.map (fun r => getCell r service_col)).all
        (fun s => (⟨df.cols, df.rows ++ [r']⟩ : Df).rows.any
          (fun r => valEq (getCell r service_col) s)) = true := by
      show ((df.rows ++ [r']).map (fun r => getCell r service_col)).all
        (fun s => (df.rows ++ [r']).any (fun r => valEq (getCell r service_col) s)) = true
      rw [hguard]
      exact hg
    rw [transform_data_guard_true hgl, transform_data_guard_true hg]
    rw [show (⟨df.cols, df.rows ++ [r']⟩ : Df).rows = df.rows ++ [r'] from rfl]
    have huniq : firstDedup ((df.rows ++ [r']).map (fun r => getCell r service_col)) =
        firstDedup (df.rows.map (fun r => getCell r service_col)) := by
      unfold firstDedup
      rw [List.map_append]
      exact firstDedupAux_append _ [] (Or.inl hkmem)
    have hfind : ∀ s, s ∈ firstDedup (df.rows.map (fun r => getCell r service_col)) →
        (df.rows ++ [r']).find? (fun r => valEq (getCell r service_col) s) =
        df.rows.find? (fun r => valEq (getCell r service_col) s) := by
      intro s hs
      have hsmem : s ∈ df.rows.map (fun r => getCell r service_col) :=
        firstDedupAux_sub _ [] hs
      have hanys : df.rows.any (fun r => valEq (getCell r service_col) s) = true :=
        List.all_eq_true.mp hg s hsmem
      obtain ⟨rr, hrr, hprr⟩ := List.any_eq_true.mp hanys
      cases hf : df.rows.find? (fun r => valEq (getCell r service_col) s) with
      | some rf => exact find?_append_some [r'] hf
      | none =>
        have := List.find?_eq_none.mp hf rr hrr
        rw [hprr] at this
        exact absurd rfl this
    rw [huniq]
    have hrows : mc.map (fun m =>
        (m, (firstDedup (df.rows.map (fun r => getCell r service_col))).map (fun s =>
          match (df.rows ++ [r']).find? (fun r => valEq (getCell r service_col) s) with
          | some r => getCell r m
          | none => Val.null))) =
      mc.map (fun m =>
        (m, (firstDedup (df.rows.map (fun r => getCell r service_col))).map (fun s =>
          match df.rows.find? (fun r => valEq (getCell r service_col) s) with
          | some r => getCell r m
          | none => Val.null))) := by
      refine List.map_congr_left (fun m _ => ?_)
      refine congrArg (fun vs => (m, vs)) ?_
      refine List.map_congr_left (fun s hs => ?_)
      rw [hfind s hs]
    rw [hrows]

theorem append_dup_category :
    ∀ (df : Df) (r' : Record),
      (∃ r ∈ df.rows, valEq (getCell r category_col) (getCell r' category_col) = true) →
      transform_to_column_format ⟨df.cols, df.rows ++ [r']⟩ =
        transform_to_column_format df := by
  intro df r' hex
  have hfindcat : ∀ cat : String,
      (df.rows ++ [r']).find? (fun rr => valEq (getCell rr category_col) (Val.str cat)) =
      df.rows.find? (fun rr => valEq (getCell rr category_col) (Val.str cat)) := by
    intro cat
    cases hf : df.rows.find? (fun rr => valEq (getCell rr category_col) (Val.str cat)) with
    | some r0 => exact find?_append_some [r'] hf
    | none =>
      have hpr' : valEq (getCell r' category_col) (Val.str cat) = false := by
        cases hv : valEq (getCell r' category_col) (Val.str cat)
        · rfl
        · obtain ⟨r0, hr0, hvr0⟩ := hex
          have he : getCell r' category_col = Val.str cat := valEq_eq hv
          rw [he] at hvr0
          have hnone := List.find?_eq_none.mp hf r0 hr0
          rw [hvr0] at hnone
          exact absurd rfl hnone
      rw [find?_append_none [r'] hf]
      simp [List.find?_cons, hpr']
  have hAll : ∀ cat : String,
      categoryColVals ⟨df.cols, df.rows ++ [r']⟩ cat = categoryColVals df cat := by
    intro cat
    unfold categoryColVals
    rw [show (⟨df.cols, df.rows ++ [r']⟩ : Df).rows = df.rows ++ [r'] from rfl,
      show (⟨df.cols, df.rows ++ [r']⟩ : Df).cols = df.cols from rfl,
      hfindcat cat]
  cases hc : df.cols.contains category_col with
  | false =>
    have hc' : (⟨df.cols, df.rows ++ [r']⟩ : Df).cols.contains category_col = false := hc
    rw [transform_error_of_no_key hc', transform_error_of_no_key hc]
  | true =>
    have hc' : (⟨df.cols, df.rows ++ [r']⟩ : Df).cols.contains category_col = true := hc
    rw [transform_eq_body hc', transform_eq_body hc,
      categoryTransformBody_eq (⟨df.cols, df.rows ++ [r']⟩ : Df),
      categoryTransformBody_eq df]
    simp only [categoryOutCols, hAll]

theorem append_dup_services :
    ∀ (df : Df) (r' : Record),
      (∃ r ∈ df.rows, valEq (getCell r service_col) (getCell r' service_col) = true) →
      services_pipeline ⟨df.cols, df.rows ++ [r']⟩ = services_pipeline df := by
  intro df r' hex
  cases hc : df.cols.contains service_col with
  | false =>
    have hc' : (⟨df.cols, df.rows ++ [r']⟩ : Df).cols.contains service_col = false := hc
    unfold services_pipeline
    rw [read_input_data_no_key hc', read_input_data_no_key hc]
  | true =>
    have hc' : (⟨df.cols, df.rows ++ [r']⟩ : Df).cols.contains service_col = true := hc
    rw [services_pipeline_eq_of_key hc', services_pipeline_eq_of_key hc]
    rw [show get_metric_columns ⟨df.cols, df.rows ++ [r']⟩ = get_metric_columns df from rfl]
    rw [transform_data_append (get_metric_columns df) hex]

theorem find?_first {α : Type} (p : α → Bool) :
    ∀ (pre : List α) (r : α) (post : List α),
      (∀ x ∈ pre, p x = false) → p r = true →
      (pre ++ r :: post).find? p = some r := by
  intro pre
  induction pre with
  | nil => intro r post _ hr; simp [List.find?_cons, hr]
  | cons a pre ih =>
    intro r post hpre hr
    have ha : p a = false := hpre a (by simp)
    show ((a :: pre) ++ r :: post).find? p = some r
    rw [List.cons_append, List.find?_cons]
    simp only [ha]
    exact ih r post (fun x hx => hpre x (by simp [hx])) hr

theorem lookupSvc_map (f : Val → Val) :
    ∀ (names : List Val) (x : Val), x ∈ names →
      lookupSvc names (names.map f) x = f x := by
  intro names
  induction names with
  | nil => intro x h; simp at h
  | cons n ns ih =>
    intro x h
    by_cases hnx : n = x
    · subst hnx
      simp [lookupSvc]
    · have hmem : x ∈ ns := by
        cases h with
        | head => exact absurd rfl hnx
        | tail _ hh => exact hh
      simp [lookupSvc, hnx, ih x hmem]

theorem colOf_cons_head {c : String × List Val} (cs : List (String × List Val)) {name : String}
    (h : (c.1 == name) = true) : colOf (c :: cs) name = c.2 := by
  unfold colOf
  rw [List.find?_cons]
  simp [h]

theorem colOf_cons_ne {c : String × List Val} (cs : List (String × List Val)) {name : String}
    (h : (c.1 == name) = false) : colOf (c :: cs) name = colOf cs name := by
  unfold colOf
  rw [List.find?_cons]
  simp [h]

theorem colOf_map_self (g : String → List Val) :
    ∀ (so : List String) (s : String), s ∈ so →
      colOf (so.map (fun x => (x, g x))) s = g s := by
  intro so
  induction so with
  | nil => intro s h; simp at h
  | cons x xs ih =>
    intro s h
    by_cases hxs : x = s
    · subst hxs
      exact colOf_cons_head _ (by simp)
    · have hb : (((x, g x) : String × List Val).1 == s) = false := by simp [hxs]
      have hmem : s ∈ xs := by
        cases h with
        | head => exact absurd rfl hxs
        | tail _ hh => exact hh
      show colOf ((x, g x) :: xs.map (fun x => (x, g x))) s = g s
      rw [colOf_cons_ne _ hb]
      exact ih s hmem

theorem mem_sortByOrder {x : String × List Val} :
    ∀ {mo : List String} {rows : List (String × List Val)},
      x ∈ sortByOrder mo rows → x ∈ rows := by
  intro mo
  induction mo with
  | nil => intro rows h; simp [sortByOrder] at h
  | cons m ms ih =>
    intro rows h
    simp only [sortByOrder, List.mem_append] at h
    rcases h with h | h
    · exact List.mem_of_mem_filter h
    · exact ih h

theorem apply_output_structure_ok_eq {t : TDf} {mo so : List String} {out : Table}
    (h : apply_output_structure t mo so = .ok out) :
    out = ⟨(sortByOrder mo (t.rows.filter (fun r => mo.contains r.1))).map Prod.fst,
      so.map (fun s =>
        (s, (sortByOrder mo (t.rows.filter (fun r => mo.contains r.1))).map
          (fun r => lookupSvc t.svcNames r.2 (Val.str s))))⟩ := by
  unfold apply_output_structure at h
  split at h
  · simp only [Except.ok.injEq] at h
    exact h.symm
  · exact absurd h (by simp)

/-- C7: first record wins and later duplicates are silently ignored, in
    both variants. Whenever the input rows split as pre, then r, then
    post, with no record of pre matching the entity and r matching it,
    the entity's output column is computed from r alone, so any duplicate
    records after r — wherever they sit — never contribute: in the
    category variant the column holds r's fillna-normalized metric
    values, in the services variant r's raw value at each output row
    label. Moreover appending a record whose key duplicates an existing
    record's key leaves the whole output of either script unchanged. -/
theorem c7_first_record_wins :
    (∀ (df : Df) (pre : List Record) (r : Record) (post : List Record)
        (cat : String) (t : Table),
      df.rows = pre ++ r :: post →
      (∀ x ∈ pre, valEq (getCell x category_col) (Val.str cat) = false) →
      valEq (getCell r category_col) (Val.str cat) = true →
      cat ∈ categories →
      transform_to_column_format df = .ok t →
      colOf t.cols cat =
        metrics.map (fun m =>
          fillnaVal (if df.cols.contains m then getCell r m else Val.num 0))) ∧
    (∀ (df : Df) (pre : List Record) (r : Record) (post : List Record)
        (s : String) (t : Table),
      df.rows = pre ++ r :: post →
      (∀ x ∈ pre, valEq (getCell x service_col) (Val.str s) = false) →
      valEq (getCell r service_col) (Val.str s) = true →
      s ∈ service_order →
      services_pipeline df = .ok t →
      colOf t.cols s = t.rowNames.map (fun m => getCell r m)) ∧
    (∀ (df : Df) (r' : Record),
      (∃ r ∈ df.rows, valEq (getCell r category_col) (getCell r' category_col) = true) →
      transform_to_column_format ⟨df.cols, df.rows ++ [r']⟩ =
        transform_to_column_format df) ∧
    (∀ (df : Df) (r' : Record),
      (∃ r ∈ df.rows, valEq (getCell r service_col) (getCell r' service_col) = true) →
      services_pipeline ⟨df.cols, df.rows ++ [r']⟩ = services_pipeline df) := by
  refine ⟨?_, ?_, append_dup_category, append_dup_services⟩
  · intro df pre r post cat t hsplit hpre hr hcat hok
    have hfind : df.rows.find?
        (fun rr => valEq (getCell rr category_col) (Val.str cat)) = some r := by
      rw [hsplit]
      exact find?_first _ pre r post hpre hr
    obtain ⟨sums, _, hteq⟩ := transform_ok_shape hok
    subst hteq
    show colOf (categoryOutCols df sums) cat = _
    rw [colOf_categoryOutCols hcat, categoryColVals_some hfind, List.map_map]
    exact List.map_congr_left (fun m _ => rfl)
  · intro df pre r post s t hsplit hpre hr hso hok
    obtain ⟨tdf, ht, ha, _⟩ := services_pipeline_ok hok
    obtain ⟨_, hrows⟩ := transform_data_ok ht
    have hfind : df.rows.find?
        (fun rr => valEq (getCell rr service_col) (Val.str s)) = some r := by
      rw [hsplit]
      exact find?_first _ pre r post hpre hr
    have hall := (apply_output_structure_ok ha).2.2
    have hmemsvc : Val.str s ∈ tdf.svcNames :=
      contains_iff.mp (List.all_eq_true.mp hall s hso)
    have hout := apply_output_structure_ok_eq ha
    subst hout
    rw [colOf_map_self _ service_order s hso]
    show (sortByOrder metric_order
        (tdf.rows.filter (fun row => metric_order.contains row.1))).map
        (fun row => lookupSvc tdf.svcNames row.2 (Val.str s)) =
      ((sortByOrder metric_order
        (tdf.rows.filter (fun row => metric_order.contains row.1))).map
        Prod.fst).map (fun m => getCell r m)
    rw [List.map_map]
    refine List.map_congr_left (fun row hrow => ?_)
    have hrowmem : row ∈ tdf.rows := List.mem_of_mem_filter (mem_sortByOrder hrow)
    rw [hrows] at hrowmem
    obtain ⟨m, _, heq⟩ := List.mem_map.mp hrowmem
    subst heq
    show lookupSvc tdf.svcNames (tdf.svcNames.map (fun sv =>
        match df.rows.find? (fun rr => valEq (getCell rr service_col) sv) with
        | some rr => getCell rr m
        | none => Val.null)) (Val.str s) = getCell r m
    rw [lookupSvc_map _ tdf.svcNames (Val.str s) hmemsvc]
    rw [hfind]

/-- C7 witness: the first-wins halves at inputs whose first two records
    share a key (the Games pair and the IntimaX pair), and the
    append-invariance halves at the full inputs with a trailing
    duplicate. -/
theorem c7_witness :
    dfDupCat.rows = [] ++ rGamesFirst :: [rGamesSecond] ∧
    valEq (getCell rGamesFirst category_col) (Val.str "Games") = true ∧
    transform_to_column_format dfDupCat = .ok tCatOnlyGames ∧
    colOf tCatOnlyGames.cols "Games" =
      metrics.map (fun m =>
        fillnaVal (if dfDupCat.cols.contains m then getCell rGamesFirst m else Val.num 0)) ∧
    services_pipeline dfDupSvc = .ok tDupSvc ∧
    colOf tDupSvc.cols "IntimaX" = tDupSvc.rowNames.map (fun m => getCell rIntimaXFirst m) ∧
    transform_to_column_format ⟨dfCatFull.cols, dfCatFull.rows ++ [rDupGames]⟩ =
      transform_to_column_format dfCatFull ∧
    services_pipeline ⟨dfSvcFull.cols, dfSvcFull.rows ++ [rDupIntimaX]⟩ =
      services_pipeline dfSvcFull :=
  ⟨rfl, by decide, rfl,
   c7_first_record_wins.1 dfDupCat [] rGamesFirst [rGamesSecond] "Games" tCatOnlyGames rfl
     (by simp) (by decide) (by decide) rfl,
   rfl,
   c7_first_record_wins.2.1 dfDupSvc [] rIntimaXFirst
     (rIntimaXSecond :: (service_order.drop 1).map
       (fun s => [(service_col, Val.str s), ("[TopLine_Revenue]", Val.num 2)]))
     "IntimaX" tDupSvc rfl (by simp) (by decide) (by decide) rfl,
   c7_first_record_wins.2.2.1 dfCatFull rDupGames (by decide),
   c7_first_record_wins.2.2.2 dfSvcFull rDupIntimaX (by decide)⟩

/-- C1 counterexample: a services input with no metric column at all
    yields an output with zero rows, not the eighteen rows of
    metric_order, so the shape is not independent of which metric columns
    appear in the input. -/
theorem c1_counterexample :
    services_pipeline dfC1 = .ok tC1 ∧
    tC1.rowNames.length = 0 ∧ metric_order.length = 18 :=
  ⟨rfl, rfl, rfl⟩

/-- C1 (amended): the category transform always builds exactly one column
    per configured category, each with one cell per configured metric,
    before derived-column insertion; the services transform, when it
    succeeds, has exactly one column per configured service, but its row
    labels are the input's bracketed metric columns arranged by
    metric_order, so the row count depends on the input. -/
theorem c1_shape_amended :
    (∀ df : Df, (categoryFilled df).length = categories.length ∧
      ∀ c ∈ categoryFilled df, c.2.length = metrics.length) ∧
    (∀ (df : Df) (t : Table), services_pipeline df = .ok t →
      t.cols.length = service_order.length ∧
      t.rowNames = orderedNames metric_order (get_metric_columns df)) := by
  constructor
  · intro df
    constructor
    · exact List.length_map _ _
    · intro c hc
      obtain ⟨cat, _, he⟩ := List.mem_map.mp hc
      subst he
      show ((categoryColVals df cat).map fillnaVal).length = metrics.length
      rw [List.length_map, categoryColVals_length]
  · intro df t h
    refine ⟨?_, services_pipeline_rowNames h⟩
    have hcols := services_pipeline_cols h
    calc t.cols.length = (t.cols.map Prod.fst).length := (List.length_map _ _).symm
      _ = service_order.length := by rw [hcols]

/-- C1 witness: both halves of the amended statement at concrete full
    inputs. -/
theorem c1_witness :
    (categoryFilled dfCatFull).length = categories.length ∧
    services_pipeline dfSvcFull = .ok tSvcFull ∧
    tSvcFull.cols.length = service_order.length :=
  ⟨(c1_shape_amended.1 dfCatFull).1, rfl,
   (c1_shape_amended.2 dfSvcFull tSvcFull rfl).1⟩

/-- C2 counterexample: a services input carrying only the Base_usuarios
    metric column produces the single-row label sequence Base_usuarios,
    which is not metric_order verbatim. -/
theorem c2_counterexample :
    services_pipeline dfC2 = .ok tC2 ∧ tC2.rowNames ≠ metric_order :=
  ⟨rfl, by decide⟩

/-- C2 (amended): the category output's row sequence is metric_order
    verbatim and its column sequence with the derived column removed is
    entity_order verbatim, for every input; the services output's column
    sequence is entity_order verbatim whenever the pipeline succeeds, but
    its row sequence is metric_order restricted to the metric columns
    actually present in the input (in metric_order arrangement, and in
    particular independent of input record order). -/
theorem c2_order_amended :
    (∀ (df : Df) (t : Table), transform_to_column_format df = .ok t →
      t.rowNames = metrics ∧
      (t.cols.map Prod.fst).filter (fun n => !(n == "Edu+Img")) = categories) ∧
    (∀ (df : Df) (t : Table), services_pipeline df = .ok t →
      t.cols.map Prod.fst = service_order ∧
      t.rowNames = orderedNames metric_order (get_metric_columns df)) := by
  constructor
  · intro df t h
    obtain ⟨sums, _, hteq⟩ := transform_ok_shape h
    subst hteq
    exact ⟨rfl, rfl⟩
  · intro df t h
    exact ⟨services_pipeline_cols h, services_pipeline_rowNames h⟩

/-- C2 witness: both halves of the amended statement at concrete inputs. -/
theorem c2_witness :
    transform_to_column_format dfCatOnlyGames = .ok tCatOnlyGames ∧
    tCatOnlyGames.rowNames = metrics ∧
    services_pipeline dfSvcFull = .ok tSvcFull ∧
    tSvcFull.cols.map Prod.fst = service_order :=
  ⟨rfl, (c2_order_amended.1 dfCatOnlyGames tCatOnlyGames rfl).1, rfl,
   (c2_order_amended.2 dfSvcFull tSvcFull rfl).1⟩

/-- C3 counterexample: in the services variant an entity of entity_order
    with no matching record is not zero-filled: the whole run aborts with
    KeyError when IntimaX is absent from the input. -/
theorem c3_counterexample :
    "IntimaX" ∈ service_order ∧
    dfC3.rows.find? (fun r => valEq (getCell r service_col) (Val.str "IntimaX")) = none ∧
    services_pipeline dfC3 = .error "KeyError" :=
  ⟨by decide, rfl, rfl⟩

/-- C3 (amended): in the category variant an entity with no matching
    record yields an all-zero column of full metric length whenever the
    transform completes, and when the two derived-source entities are both
    unmatched (as in the P3 scenario) the transform does complete with no
    exception; in the services variant a configured service with no
    matching record makes the structuring step raise KeyError, aborting
    the run instead of zero-filling. -/
theorem c3_missing_entity_amended :
    (∀ (df : Df) (cat : String) (t : Table),
      cat ∈ categories →
      df.rows.find? (fun r => valEq (getCell r category_col) (Val.str cat)) = none →
      transform_to_column_format df = .ok t →
      (colOf t.cols cat).length = metrics.length ∧
      ∀ v ∈ colOf t.cols cat, v = Val.num 0) ∧
    (∀ df : Df, df.cols.contains category_col = true →
      df.rows.find? (fun r => valEq (getCell r category_col) (Val.str "Education")) = none →
      df.rows.find? (fun r => valEq (getCell r category_col) (Val.str "Images")) = none →
      isOkE (transform_to_column_format df) = true) ∧
    (∀ (t : TDf) (s : String), s ∈ service_order →
      t.svcNames.contains (Val.str s) = false →
      apply_output_structure t metric_order service_order = .error "KeyError") := by
  refine ⟨?_, ?_, fun t s hmem habs => apply_output_structure_err hmem habs⟩
  · intro df cat t hcat hfind h
    obtain ⟨sums, _, hteq⟩ := transform_ok_shape h
    subst hteq
    show (colOf (categoryOutCols df sums) cat).length = metrics.length ∧
      ∀ v ∈ colOf (categoryOutCols df sums) cat, v = Val.num 0
    rw [colOf_categoryOutCols hcat, categoryColVals_none hfind]
    constructor
    · simp
    · intro v hv
      simp only [List.map_map, List.mem_map] at hv
      obtain ⟨a, _, he⟩ := hv
      simpa [fillnaVal] using he.symm
  · intro df hkey hedu himg
    rw [transform_eq_body hkey, categoryTransformBody_eq,
      categoryColVals_none hedu, categoryColVals_none himg]
    rfl

/-- C3 witness: all three parts of the amended statement at concrete
    inputs. -/
theorem c3_witness :
    transform_to_column_format dfCatOnlyGames = .ok tCatOnlyGames ∧
    (∀ v ∈ colOf tCatOnlyGames.cols "Kids", v = Val.num 0) ∧
    isOkE (transform_to_column_format dfCatOnlyGames) = true ∧
    apply_output_structure ⟨[], []⟩ metric_order service_order = .error "KeyError" :=
  ⟨rfl,
   (c3_missing_entity_amended.1 dfCatOnlyGames "Kids" tCatOnlyGames (by decide) rfl rfl).2,
   c3_missing_entity_amended.2.1 dfCatOnlyGames rfl rfl rfl,
   c3_missing_entity_amended.2.2 ⟨[], []⟩ "IntimaX" (by decide) rfl⟩

/-- C6 counterexample: in the services variant a metric of metric_order
    whose column is absent from the input does not appear as a zero row:
    its row is missing from the output entirely. -/
theorem c6_counterexample :
    services_pipeline dfC6 = .ok tC6 ∧
    "[TopLine_Revenue]" ∈ metric_order ∧
    get_metric_columns dfC6 = ["[v__Churn]"] ∧
    "[TopLine_Revenue]" ∉ tC6.rowNames :=
  ⟨rfl, by decide, rfl, by decide⟩

/-- C6 (amended): in the category variant, for a matched record and a
    configured metric whose column is absent from the frame, the cell is
    zero and the metric row still appears (row labels are always the full
    metric list) whenever the transform completes; in the services
    variant such a metric's row is omitted from the output altogether. -/
theorem c6_missing_metric_amended :
    (∀ (df : Df) (r : Record) (cat m : String) (t : Table),
      cat ∈ categories →
      df.rows.find? (fun rr => valEq (getCell rr category_col) (Val.str cat)) = some r →
      m ∈ metrics → df.cols.contains m = false →
      transform_to_column_format df = .ok t →
      cellOf t m cat = Val.num 0 ∧ t.rowNames = metrics) ∧
    (∀ (df : Df) (t : Table) (m : String), services_pipeline df = .ok t →
      m ∉ get_metric_columns df → m ∉ t.rowNames) := by
  constructor
  · intro df r cat m t hcat hfind hm hcol h
    obtain ⟨sums, _, hteq⟩ := transform_ok_shape h
    subst hteq
    refine ⟨?_, rfl⟩
    show cellLookup metrics (colOf (categoryOutCols df sums) cat) m = Val.num 0
    rw [colOf_categoryOutCols hcat, categoryColVals_some hfind, List.map_map,
      cellLookup_map _ metrics m hm]
    have hnot : ¬ (df.cols.contains m = true) := by rw [hcol]; simp
    show fillnaVal (if df.cols.contains m = true then getCell r m else Val.num 0) = Val.num 0
    rw [if_neg hnot]
    rfl
  · intro df t m h hnotin hmem
    rw [services_pipeline_rowNames h] at hmem
    exact hnotin (mem_orderedNames hmem)

/-- C6 witness: both halves of the amended statement at concrete inputs:
    Base_usuarios is absent from the full category input's columns, and
    v__Churn is absent from the full services input's metric columns. -/
theorem c6_witness :
    transform_to_column_format dfCatFull = .ok tCatFull ∧
    cellOf tCatFull "[Base_usuarios]" "Games" = Val.num 0 ∧
    services_pipeline dfSvcFull = .ok tSvcFull ∧
    "[v__Churn]" ∉ tSvcFull.rowNames :=
  ⟨rfl,
   (c6_missing_metric_amended.1 dfCatFull
     [(category_col, Val.str "Games"), ("[TopLine_Revenue]", Val.num 3)]
     "Games" "[Base_usuarios]" tCatFull (by decide) rfl (by decide) rfl rfl).1,
   rfl,
   c6_missing_metric_amended.2 dfSvcFull tSvcFull "[v__Churn]" rfl (by decide)⟩
